import Mathlib

/-!
Shallow embedding of the trading-journal core: the trade statistics engine
(`src/lib/tradeCalculations.ts`) and the local/remote reconciliation engine
(`hasNewData` / `mergeStrategies`).

JavaScript numbers are modelled as exact rationals (`ℚ`); string-union types
as `String`; optional fields as `Option`.  Each definition mirrors the source
line by line; comments quote the original where the translation is not
word-for-word.
-/

/-- Status of a trade, a TS string union: 'open' | 'win' | 'loss' | 'breakeven'. -/
abbrev TradeStatus := String

/-- An additional buy into an already-open position (`PyramidEntry` in types.ts). -/
structure PyramidEntry where
  id : String
  price : ℚ
  quantity : ℚ
deriving DecidableEq

/-- A partial sell of the position (`PartialExit` in types.ts). -/
structure PartialExit where
  id : String
  price : ℚ
  quantity : ℚ
deriving DecidableEq

/-- A trailing protective stop level (`TrailingStop` in types.ts). -/
structure TrailingStop where
  id : String
  price : ℚ
deriving DecidableEq

/-- The central `Trade` entity (types.ts). -/
structure Trade where
  id : String
  strategyId : String
  asset : String
  date : String
  entryPrice : ℚ
  quantity : ℚ
  initialSl : ℚ
  exitPrice : Option ℚ
  status : TradeStatus
  notes : String
  pyramids : List PyramidEntry
  trailingStops : List TrailingStop
  partialExits : List PartialExit
  statusManuallySet : Option Bool
deriving DecidableEq

/-- A strategy owning a list of trades (types.ts). -/
structure Strategy where
  id : String
  name : String
  initialCapital : ℚ
  trades : List Trade
deriving DecidableEq

/-- The record returned by `getTradeStats` (interface `TradeStats`). -/
structure TradeStats where
  totalBoughtQty : ℚ
  totalSoldQty : ℚ
  currentHoldingsQty : ℚ
  totalInvested : ℚ
  avgEntryPrice : ℚ
  totalProceeds : ℚ
  avgExitPrice : ℚ
  realizedPL : ℚ
  isClosed : Bool
  currentValue : ℚ
  totalRiskValue : ℚ
  initialTotalRisk : ℚ
  rMultiple : ℚ
deriving DecidableEq

/-- `getEffectiveStopLoss` (tradeCalculations.ts lines 25-39).
If trailing stops exist, the highest positive trailing-stop price is used;
otherwise `trade.initialSl || 0` (which for a rational equals `initialSl`,
since a zero falls through to the literal `0`). -/
def getEffectiveStopLoss (trade : Trade) : ℚ :=
  if trade.trailingStops.length > 0 then
    -- const trailingStopPrices = trade.trailingStops.map(ts => ts.price).filter(price => price > 0)
    match ((trade.trailingStops.map TrailingStop.price).filter (fun price => price > 0)).max? with
    | some m => m                                           -- return Math.max(...trailingStopPrices)
    | none => if trade.initialSl ≠ 0 then trade.initialSl else 0  -- return trade.initialSl || 0
  else if trade.initialSl ≠ 0 then trade.initialSl else 0   -- return trade.initialSl || 0

/-- Modelled from the spec (§3 invariants): `effectiveStopLoss = max(trailingStops.price
where price > 0) if any exist, else initialSl`.  Used to compare `getEffectiveStopLoss`
against the spec's wording. -/
def specEffectiveStopLoss (trade : Trade) : ℚ :=
  match ((trade.trailingStops.map TrailingStop.price).filter (fun price => price > 0)).max? with
  | some m => m
  | none => trade.initialSl

/-- `const plPercentage = initialInvestment > 0 ? (stats.realizedPL / initialInvestment) * 100 : 0`
(tradeCalculations.ts line 55). -/
def plPercentageOf (stats : TradeStats) (initialInvestment : ℚ) : ℚ :=
  if initialInvestment > 0 then stats.realizedPL / initialInvestment * 100 else 0

/-- `calculateTradeStatus` (tradeCalculations.ts lines 48-65). -/
def calculateTradeStatus (stats : TradeStats) (initialInvestment : ℚ) : TradeStatus :=
  if stats.isClosed = false then "open"                     -- if (!stats.isClosed) return 'open'
  else if plPercentageOf stats initialInvestment ≥ -(1/2) ∧
          plPercentageOf stats initialInvestment ≤ 1/2 then "breakeven"
  else if stats.realizedPL > 0 then "win"                   -- else if (stats.realizedPL > 0) return 'win'
  else "loss"

/-- Modelled from the spec (§4.1 status derivation): breakeven inside the ±0.5% band,
`win` when `plPercent > 0.5`, otherwise `loss`; `open` when not closed; `plPercent`
is `realizedPL / initialInvestment * 100`, taken as 0 when `initialInvestment <= 0`
(the same formula as `plPercentageOf`). -/
def specDeriveStatus (stats : TradeStats) (initialInvestment : ℚ) : TradeStatus :=
  if stats.isClosed = false then "open"
  else if plPercentageOf stats initialInvestment ≥ -(1/2) ∧
          plPercentageOf stats initialInvestment ≤ 1/2 then "breakeven"
  else if plPercentageOf stats initialInvestment > 1/2 then "win"
  else "loss"

/-! The body of `getTradeStats` (tradeCalculations.ts lines 67-134).  The source
introduces one `const`/`let` per quantity; each becomes a named definition here,
in source order, and `getTradeStats` assembles the returned record from them. -/

/-- `const initialInvestment = trade.entryPrice * trade.quantity`. -/
def initialInvestmentOf (trade : Trade) : ℚ := trade.entryPrice * trade.quantity

/-- `const pyramidInvestments = trade.pyramids.reduce((sum, p) => sum + (p.price * p.quantity), 0)`. -/
def pyramidInvestments (trade : Trade) : ℚ :=
  trade.pyramids.foldl (fun sum p => sum + p.price * p.quantity) 0

/-- `const pyramidBoughtQty = trade.pyramids.reduce((sum, p) => sum + p.quantity, 0)`. -/
def pyramidBoughtQty (trade : Trade) : ℚ :=
  trade.pyramids.foldl (fun sum p => sum + p.quantity) 0

/-- `const totalInvested = initialInvestment + pyramidInvestments`. -/
def totalInvestedOf (trade : Trade) : ℚ := initialInvestmentOf trade + pyramidInvestments trade

/-- `const totalBoughtQty = initialBoughtQty + pyramidBoughtQty` (initialBoughtQty = trade.quantity). -/
def totalBoughtQtyOf (trade : Trade) : ℚ := trade.quantity + pyramidBoughtQty trade

/-- `const avgEntryPrice = totalBoughtQty > 0 ? totalInvested / totalBoughtQty : 0`. -/
def avgEntryPriceOf (trade : Trade) : ℚ :=
  if totalBoughtQtyOf trade > 0 then totalInvestedOf trade / totalBoughtQtyOf trade else 0

/-- `let totalProceeds = (trade.partialExits || []).reduce((sum, pe) => sum + (pe.price * pe.quantity), 0)`
(the value before the exit-price override). -/
def partialProceeds (trade : Trade) : ℚ :=
  trade.partialExits.foldl (fun sum pe => sum + pe.price * pe.quantity) 0

/-- `let totalSoldQty = (trade.partialExits || []).reduce((sum, pe) => sum + pe.quantity, 0)`
(the value before the exit-price override). -/
def partialSoldQty (trade : Trade) : ℚ :=
  trade.partialExits.foldl (fun sum pe => sum + pe.quantity) 0

/-- `const currentHoldingsQty = totalBoughtQty - totalSoldQty` — computed from the
pre-override `totalSoldQty`, i.e. from the partial exits only. -/
def currentHoldingsQtyOf (trade : Trade) : ℚ := totalBoughtQtyOf trade - partialSoldQty trade

/-- The guard of Case 1 (lines 86-89): `isClosed && trade.exitPrice && (trade.partialExits || []).length === 0`,
where `isClosed` is still `trade.status !== 'open'` at this point and `trade.exitPrice`
is truthy exactly when present and nonzero. -/
def exitPriceOverride (trade : Trade) : Prop :=
  trade.status ≠ "open" ∧ trade.exitPrice.getD 0 ≠ 0 ∧ trade.partialExits = []

instance (trade : Trade) : Decidable (exitPriceOverride trade) := by
  unfold exitPriceOverride; exact inferInstance

/-- `totalSoldQty` after Case 1: `totalSoldQty = totalBoughtQty` when the override fires. -/
def totalSoldQtyOf (trade : Trade) : ℚ :=
  if exitPriceOverride trade then totalBoughtQtyOf trade else partialSoldQty trade

/-- `totalProceeds` after Case 1: `totalProceeds = trade.exitPrice * totalBoughtQty` when the override fires. -/
def totalProceedsOf (trade : Trade) : ℚ :=
  if exitPriceOverride trade then trade.exitPrice.getD 0 * totalBoughtQtyOf trade
  else partialProceeds trade

/-- `isClosed` after Case 2 (lines 92-94): starts as `trade.status !== 'open'`, forced
to `true` when `totalBoughtQty > 0 && currentHoldingsQty <= 0`. -/
def isClosedOf (trade : Trade) : Bool :=
  if totalBoughtQtyOf trade > 0 ∧ currentHoldingsQtyOf trade ≤ 0 then true
  else trade.status != "open"

/-- `const avgExitPrice = totalSoldQty > 0 ? totalProceeds / totalSoldQty : 0`. -/
def avgExitPriceOf (trade : Trade) : ℚ :=
  if totalSoldQtyOf trade > 0 then totalProceedsOf trade / totalSoldQtyOf trade else 0

/-- `realizedPL`: `totalProceeds - avgEntryPrice * totalSoldQty` while open,
overwritten with `totalProceeds - totalInvested` once closed (lines 98-106). -/
def realizedPLOf (trade : Trade) : ℚ :=
  if isClosedOf trade then totalProceedsOf trade - totalInvestedOf trade
  else totalProceedsOf trade - avgEntryPriceOf trade * totalSoldQtyOf trade

/-- `const currentValue = currentHoldingsQty * avgEntryPrice`. -/
def currentValueOf (trade : Trade) : ℚ := currentHoldingsQtyOf trade * avgEntryPriceOf trade

/-- `const totalRiskValue = currentHoldingsQty * (avgEntryPrice - effectiveStopLoss)`. -/
def totalRiskValueOf (trade : Trade) : ℚ :=
  currentHoldingsQtyOf trade * (avgEntryPriceOf trade - getEffectiveStopLoss trade)

/-- `const initialTotalRisk = totalBoughtQty > 0 ? totalBoughtQty * (avgEntryPrice - trade.initialSl) : 0`. -/
def initialTotalRiskOf (trade : Trade) : ℚ :=
  if totalBoughtQtyOf trade > 0 then totalBoughtQtyOf trade * (avgEntryPriceOf trade - trade.initialSl)
  else 0

/-- `const rMultiple = isClosed && initialTotalRisk > 0 ? realizedPL / initialTotalRisk : 0`. -/
def rMultipleOf (trade : Trade) : ℚ :=
  if isClosedOf trade = true ∧ initialTotalRiskOf trade > 0 then
    realizedPLOf trade / initialTotalRiskOf trade
  else 0

/-- `getTradeStats` (tradeCalculations.ts lines 67-134): the returned record. -/
def getTradeStats (trade : Trade) : TradeStats where
  totalBoughtQty := totalBoughtQtyOf trade
  totalSoldQty := totalSoldQtyOf trade
  currentHoldingsQty := currentHoldingsQtyOf trade
  totalInvested := totalInvestedOf trade
  avgEntryPrice := avgEntryPriceOf trade
  totalProceeds := totalProceedsOf trade
  avgExitPrice := avgExitPriceOf trade
  realizedPL := realizedPLOf trade
  isClosed := isClosedOf trade
  currentValue := currentValueOf trade
  totalRiskValue := totalRiskValueOf trade
  initialTotalRisk := initialTotalRiskOf trade
  rMultiple := rMultipleOf trade

/-! Concrete trades used by witnesses and counterexamples. -/

/-- The spec's full-close-via-exitPrice example: quantity 10, entryPrice 100,
status 'win', exitPrice 110, no partial exits. -/
def exitClosedTrade : Trade where
  id := "t1"
  strategyId := "s1"
  asset := "X"
  date := "2024-01-01"
  entryPrice := 100
  quantity := 10
  initialSl := 95
  exitPrice := some 110
  status := "win"
  notes := ""
  pyramids := []
  trailingStops := []
  partialExits := []
  statusManuallySet := none

/-- A trade marked closed with `exitPrice = 0` (falsy in JS): the Case-1 override
does not fire even though the exit price is present. -/
def zeroExitTrade : Trade where
  id := "t2"
  strategyId := "s1"
  asset := "X"
  date := "2024-01-01"
  entryPrice := 100
  quantity := 10
  initialSl := 95
  exitPrice := some 0
  status := "loss"
  notes := ""
  pyramids := []
  trailingStops := []
  partialExits := []
  statusManuallySet := none

/-- An open trade with one partial exit covering part of the position. -/
def openPartialTrade : Trade where
  id := "t3"
  strategyId := "s1"
  asset := "X"
  date := "2024-01-01"
  entryPrice := 100
  quantity := 10
  initialSl := 95
  exitPrice := none
  status := "open"
  notes := ""
  pyramids := []
  trailingStops := []
  partialExits := [{ id := "pe1", price := 110, quantity := 4 }]
  statusManuallySet := none

/-- The spec's full-close-via-partials example: all 10 shares sold through a partial exit
while the stored status is still 'open'. -/
def fullPartialTrade : Trade where
  id := "t4"
  strategyId := "s1"
  asset := "X"
  date := "2024-01-01"
  entryPrice := 100
  quantity := 10
  initialSl := 95
  exitPrice := none
  status := "open"
  notes := ""
  pyramids := []
  trailingStops := []
  partialExits := [{ id := "pe1", price := 110, quantity := 10 }]
  statusManuallySet := none

/-- The spec's effective-stop example: initialSl 95 with trailing stops at 97 and 99. -/
def trailingTrade : Trade where
  id := "t5"
  strategyId := "s1"
  asset := "X"
  date := "2024-01-01"
  entryPrice := 100
  quantity := 10
  initialSl := 95
  exitPrice := none
  status := "open"
  notes := ""
  pyramids := []
  trailingStops := [{ id := "ts1", price := 97 }, { id := "ts2", price := 99 }]
  partialExits := []
  statusManuallySet := none

/-! Helper lemmas shared by several claim proofs. -/

/-- `getEffectiveStopLoss` computes exactly the spec's effective-stop formula. -/
lemma getEffectiveStopLoss_eq_spec (t : Trade) :
    getEffectiveStopLoss t = specEffectiveStopLoss t := by
  have hfb : (if t.initialSl ≠ 0 then t.initialSl else 0) = t.initialSl := by
    by_cases h0 : t.initialSl = 0
    · simp [h0]
    · simp [h0]
  unfold getEffectiveStopLoss specEffectiveStopLoss
  cases hts : t.trailingStops with
  | nil => simpa using hfb
  | cons a l =>
    cases hm : (((a :: l).map TrailingStop.price).filter (fun price => price > 0)).max? with
    | some m => simp [hm]
    | none => simpa [hm] using hfb

/-- Folding quantity additions over a list of pyramid entries with nonnegative
quantities, starting from a nonnegative accumulator, stays nonnegative. -/
lemma foldl_add_quantity_nonneg (l : List PyramidEntry) (a : ℚ) (ha : 0 ≤ a)
    (hl : ∀ p ∈ l, 0 ≤ p.quantity) :
    0 ≤ l.foldl (fun sum p => sum + p.quantity) a := by
  induction l generalizing a with
  | nil => simpa using ha
  | cons p l ih =>
    have hp : 0 ≤ p.quantity := hl p (by simp)
    have h1 : 0 ≤ a + p.quantity := by linarith
    simpa using ih (a + p.quantity) h1 (fun q hq => hl q (by simp [hq]))

/-- The total bought quantity is nonnegative when the initial quantity and all
pyramid quantities are. -/
lemma totalBoughtQtyOf_nonneg (t : Trade) (hq : 0 ≤ t.quantity)
    (hp : ∀ p ∈ t.pyramids, 0 ≤ p.quantity) : 0 ≤ totalBoughtQtyOf t := by
  have := foldl_add_quantity_nonneg t.pyramids 0 le_rfl hp
  unfold totalBoughtQtyOf pyramidBoughtQty
  linarith

/-! Claim theorems about the trade statistics engine. -/

/-- Claim C1 (counterexample): for the trade closed via a single exit price the
returned stats have `currentHoldingsQty = 10` but `totalBoughtQty - totalSoldQty = 0`,
because `currentHoldingsQty` is computed before the Case-1 override rewrites
`totalSoldQty`. -/
theorem c1_holdings_counterexample :
    exitClosedTrade.status ≠ "open" ∧ exitClosedTrade.exitPrice = some 110 ∧
    exitClosedTrade.partialExits = [] ∧
    (getTradeStats exitClosedTrade).currentHoldingsQty ≠
      (getTradeStats exitClosedTrade).totalBoughtQty -
        (getTradeStats exitClosedTrade).totalSoldQty := by
  refine ⟨by decide, rfl, rfl, ?_⟩
  show currentHoldingsQtyOf exitClosedTrade ≠
    totalBoughtQtyOf exitClosedTrade - totalSoldQtyOf exitClosedTrade
  have hov : exitPriceOverride exitClosedTrade := by
    refine ⟨by decide, ?_, rfl⟩
    norm_num [exitClosedTrade]
  rw [totalSoldQtyOf, if_pos hov]
  norm_num [currentHoldingsQtyOf, totalBoughtQtyOf, partialSoldQty,
    pyramidBoughtQty, exitClosedTrade]

/-- Claim C1 (amended): `currentHoldingsQty = totalBoughtQty - totalSoldQty` holds for
every trade on which the single-exit-price override does not fire (in particular for
every trade that is open, has no truthy exit price, or has partial exits). -/
theorem c1_holdings_invariant (t : Trade) (h : ¬ exitPriceOverride t) :
    (getTradeStats t).currentHoldingsQty =
      (getTradeStats t).totalBoughtQty - (getTradeStats t).totalSoldQty := by
  show currentHoldingsQtyOf t = totalBoughtQtyOf t - totalSoldQtyOf t
  unfold currentHoldingsQtyOf totalSoldQtyOf
  rw [if_neg h]

/-- Witness for `c1_holdings_invariant` at the open trade with one partial exit. -/
theorem c1_holdings_invariant_witness :
    ¬ exitPriceOverride openPartialTrade ∧
    (getTradeStats openPartialTrade).currentHoldingsQty =
      (getTradeStats openPartialTrade).totalBoughtQty -
        (getTradeStats openPartialTrade).totalSoldQty :=
  ⟨by decide, c1_holdings_invariant openPartialTrade (by decide)⟩

/-- Claim C3 (counterexample): a closed trade with `exitPrice = 0` (present but falsy)
and no partial exits does not get the override, so `totalSoldQty` stays 0 instead of
becoming `totalBoughtQty = 10`. -/
theorem c3_exit_close_counterexample :
    zeroExitTrade.status ≠ "open" ∧ zeroExitTrade.exitPrice.isSome = true ∧
    zeroExitTrade.partialExits = [] ∧
    (getTradeStats zeroExitTrade).totalSoldQty ≠ (getTradeStats zeroExitTrade).totalBoughtQty := by
  refine ⟨by decide, rfl, rfl, ?_⟩
  show totalSoldQtyOf zeroExitTrade ≠ totalBoughtQtyOf zeroExitTrade
  norm_num [totalSoldQtyOf, totalBoughtQtyOf, partialSoldQty, pyramidBoughtQty,
    exitPriceOverride, zeroExitTrade]

/-- Claim C3 (amended): for every trade whose stored status is not 'open', whose
exit price is set to a nonzero value, and whose partial-exit list is empty,
`getTradeStats` reports the whole position sold at the exit price:
`totalSoldQty = totalBoughtQty`, `totalProceeds = exitPrice * totalBoughtQty`,
`isClosed = true` and `realizedPL = totalProceeds - totalInvested`. -/
theorem c3_full_close_via_exit_price (t : Trade) (p : ℚ)
    (hs : t.status ≠ "open") (he : t.exitPrice = some p) (hp : p ≠ 0)
    (hpe : t.partialExits = []) :
    (getTradeStats t).totalSoldQty = (getTradeStats t).totalBoughtQty ∧
    (getTradeStats t).totalProceeds = p * (getTradeStats t).totalBoughtQty ∧
    (getTradeStats t).isClosed = true ∧
    (getTradeStats t).realizedPL =
      (getTradeStats t).totalProceeds - (getTradeStats t).totalInvested := by
  have hov : exitPriceOverride t := ⟨hs, by rw [he]; simpa using hp, hpe⟩
  have hClosed : isClosedOf t = true := by
    unfold isClosedOf
    by_cases h : totalBoughtQtyOf t > 0 ∧ currentHoldingsQtyOf t ≤ 0
    · rw [if_pos h]
    · rw [if_neg h]
      simpa [bne_iff_ne] using hs
  refine ⟨?_, ?_, hClosed, ?_⟩
  · show totalSoldQtyOf t = totalBoughtQtyOf t
    unfold totalSoldQtyOf
    rw [if_pos hov]
  · show totalProceedsOf t = p * totalBoughtQtyOf t
    unfold totalProceedsOf
    rw [if_pos hov, he]
    simp
  · show realizedPLOf t = totalProceedsOf t - totalInvestedOf t
    unfold realizedPLOf
    rw [hClosed]
    simp

/-- Witness for `c3_full_close_via_exit_price` at the spec's example trade
(quantity 10, entryPrice 100, status 'win', exitPrice 110). -/
theorem c3_full_close_witness :
    exitClosedTrade.status ≠ "open" ∧ exitClosedTrade.exitPrice = some 110 ∧
    (110 : ℚ) ≠ 0 ∧ exitClosedTrade.partialExits = [] ∧
    ((getTradeStats exitClosedTrade).totalSoldQty = (getTradeStats exitClosedTrade).totalBoughtQty ∧
     (getTradeStats exitClosedTrade).totalProceeds =
       110 * (getTradeStats exitClosedTrade).totalBoughtQty ∧
     (getTradeStats exitClosedTrade).isClosed = true ∧
     (getTradeStats exitClosedTrade).realizedPL =
       (getTradeStats exitClosedTrade).totalProceeds -
         (getTradeStats exitClosedTrade).totalInvested) :=
  ⟨by decide, rfl, by norm_num, rfl,
    c3_full_close_via_exit_price exitClosedTrade 110 (by decide) rfl (by norm_num) rfl⟩

/-- Claim C6: whenever the returned stats show a positive bought quantity and
nonpositive current holdings, the trade is reported closed, regardless of the
stored status. -/
theorem c6_full_sellout_forces_closed (t : Trade)
    (h1 : (getTradeStats t).totalBoughtQty > 0)
    (h2 : (getTradeStats t).currentHoldingsQty ≤ 0) :
    (getTradeStats t).isClosed = true := by
  show isClosedOf t = true
  unfold isClosedOf
  exact if_pos ⟨h1, h2⟩

/-- Witness for `c6_full_sellout_forces_closed` at the spec's full-close-via-partials
example (status 'open', all 10 shares sold through a partial exit). -/
theorem c6_full_sellout_witness :
    fullPartialTrade.status = "open" ∧
    (getTradeStats fullPartialTrade).totalBoughtQty > 0 ∧
    (getTradeStats fullPartialTrade).currentHoldingsQty ≤ 0 ∧
    (getTradeStats fullPartialTrade).isClosed = true := by
  have h1 : (getTradeStats fullPartialTrade).totalBoughtQty > 0 := by
    show totalBoughtQtyOf fullPartialTrade > 0
    norm_num [totalBoughtQtyOf, pyramidBoughtQty, fullPartialTrade]
  have h2 : (getTradeStats fullPartialTrade).currentHoldingsQty ≤ 0 := by
    show currentHoldingsQtyOf fullPartialTrade ≤ 0
    norm_num [currentHoldingsQtyOf, totalBoughtQtyOf, pyramidBoughtQty, partialSoldQty,
      fullPartialTrade]
  exact ⟨by decide, h1, h2, c6_full_sellout_forces_closed fullPartialTrade h1 h2⟩

/-- Claim C5: the stop loss used in `totalRiskValue` is the spec's effective stop
(the highest positive trailing-stop price if any, else `initialSl`), while
`initialTotalRisk` is `totalBoughtQty * (avgEntryPrice - initialSl)` independently of
trailing stops.  Quantities are nonnegative by construction upstream (spec §3). -/
theorem c5_effective_stop_and_initial_risk (t : Trade)
    (hq : 0 ≤ t.quantity) (hp : ∀ p ∈ t.pyramids, 0 ≤ p.quantity) :
    (getTradeStats t).totalRiskValue =
      (getTradeStats t).currentHoldingsQty *
        ((getTradeStats t).avgEntryPrice - specEffectiveStopLoss t) ∧
    (getTradeStats t).initialTotalRisk =
      (getTradeStats t).totalBoughtQty * ((getTradeStats t).avgEntryPrice - t.initialSl) := by
  constructor
  · show totalRiskValueOf t =
      currentHoldingsQtyOf t * (avgEntryPriceOf t - specEffectiveStopLoss t)
    unfold totalRiskValueOf
    rw [getEffectiveStopLoss_eq_spec]
  · show initialTotalRiskOf t = totalBoughtQtyOf t * (avgEntryPriceOf t - t.initialSl)
    unfold initialTotalRiskOf
    by_cases h : totalBoughtQtyOf t > 0
    · rw [if_pos h]
    · rw [if_neg h]
      have hz : totalBoughtQtyOf t = 0 :=
        le_antisymm (not_lt.mp h) (totalBoughtQtyOf_nonneg t hq hp)
      rw [hz, zero_mul]

/-- Witness for `c5_effective_stop_and_initial_risk` at the spec's example
(initialSl 95, trailing stops at 97 and 99). -/
theorem c5_effective_stop_witness :
    (0 : ℚ) ≤ trailingTrade.quantity ∧
    specEffectiveStopLoss trailingTrade = 99 ∧
    ((getTradeStats trailingTrade).totalRiskValue =
      (getTradeStats trailingTrade).currentHoldingsQty *
        ((getTradeStats trailingTrade).avgEntryPrice - specEffectiveStopLoss trailingTrade) ∧
     (getTradeStats trailingTrade).initialTotalRisk =
      (getTradeStats trailingTrade).totalBoughtQty *
        ((getTradeStats trailingTrade).avgEntryPrice - trailingTrade.initialSl)) :=
  ⟨by norm_num [trailingTrade],
   by norm_num [specEffectiveStopLoss, trailingTrade, List.max?],
   c5_effective_stop_and_initial_risk trailingTrade (by norm_num [trailingTrade])
     (by simp [trailingTrade])⟩

/-- Claim C10: two trades that agree on every field except `trailingStops` get
identical stats on every field except possibly `totalRiskValue`. -/
theorem c10_trailing_stops_only_affect_risk (t : Trade) (ts : List TrailingStop) :
    (getTradeStats { t with trailingStops := ts }).totalBoughtQty =
      (getTradeStats t).totalBoughtQty ∧
    (getTradeStats { t with trailingStops := ts }).totalSoldQty =
      (getTradeStats t).totalSoldQty ∧
    (getTradeStats { t with trailingStops := ts }).currentHoldingsQty =
      (getTradeStats t).currentHoldingsQty ∧
    (getTradeStats { t with trailingStops := ts }).totalInvested =
      (getTradeStats t).totalInvested ∧
    (getTradeStats { t with trailingStops := ts }).avgEntryPrice =
      (getTradeStats t).avgEntryPrice ∧
    (getTradeStats { t with trailingStops := ts }).totalProceeds =
      (getTradeStats t).totalProceeds ∧
    (getTradeStats { t with trailingStops := ts }).avgExitPrice =
      (getTradeStats t).avgExitPrice ∧
    (getTradeStats { t with trailingStops := ts }).realizedPL =
      (getTradeStats t).realizedPL ∧
    (getTradeStats { t with trailingStops := ts }).isClosed =
      (getTradeStats t).isClosed ∧
    (getTradeStats { t with trailingStops := ts }).currentValue =
      (getTradeStats t).currentValue ∧
    (getTradeStats { t with trailingStops := ts }).initialTotalRisk =
      (getTradeStats t).initialTotalRisk ∧
    (getTradeStats { t with trailingStops := ts }).rMultiple =
      (getTradeStats t).rMultiple :=
  ⟨rfl, rfl, rfl, rfl, rfl, rfl, rfl, rfl, rfl, rfl, rfl, rfl⟩

/-- Claim C4: `calculateTradeStatus` agrees with the spec's status derivation on
every input: 'open' when not closed, 'breakeven' inside the ±0.5% band, 'win' when
the P/L percentage exceeds 0.5, otherwise 'loss'. -/
theorem c4_status_matches_spec (stats : TradeStats) (initialInvestment : ℚ) :
    calculateTradeStatus stats initialInvestment = specDeriveStatus stats initialInvestment := by
  unfold calculateTradeStatus specDeriveStatus
  by_cases hc : stats.isClosed = false
  · simp [hc]
  · rw [if_neg hc, if_neg hc]
    by_cases hband : plPercentageOf stats initialInvestment ≥ -(1/2) ∧
        plPercentageOf stats initialInvestment ≤ 1/2
    · rw [if_pos hband, if_pos hband]
    · rw [if_neg hband, if_neg hband]
      by_cases hii : initialInvestment > 0
      · have hpl : plPercentageOf stats initialInvestment =
            stats.realizedPL / initialInvestment * 100 := if_pos hii
        rcases not_and_or.mp hband with h | h
        · have hlt : plPercentageOf stats initialInvestment < -(1/2) := not_le.mp h
          rw [hpl] at hlt
          have hdiv : stats.realizedPL / initialInvestment < 0 := by linarith
          have hneg : stats.realizedPL < 0 := by
            by_contra hr
            have : 0 ≤ stats.realizedPL / initialInvestment :=
              div_nonneg (not_lt.mp hr) hii.le
            linarith
          have hnw : ¬ stats.realizedPL > 0 := by linarith
          have hns : ¬ plPercentageOf stats initialInvestment > 1/2 := by
            rw [hpl]; linarith
          rw [if_neg hnw, if_neg hns]
        · have hgt : plPercentageOf stats initialInvestment > 1/2 := not_le.mp h
          have hgt' := hgt
          rw [hpl] at hgt'
          have hdiv : stats.realizedPL / initialInvestment > 0 := by linarith
          have hposr : stats.realizedPL > 0 := by
            by_contra hr
            have : stats.realizedPL / initialInvestment ≤ 0 :=
              div_nonpos_of_nonpos_of_nonneg (not_lt.mp hr) hii.le
            linarith
          rw [if_pos hposr, if_pos hgt]
      · exfalso
        apply hband
        have hpl : plPercentageOf stats initialInvestment = 0 := if_neg hii
        rw [hpl]
        norm_num

/-! The reconciliation engine (`hasNewData` / `mergeStrategies`).  The source keys
JS `Map`s by strategy id; on duplicate keys a JS `Map` keeps the last binding, so
the lookup is modelled as `find?` on the reversed list. -/

/-- `localStrategyMap.get(id)` where `localStrategyMap = new Map(local.map(s => [s.id, s]))`:
the last strategy in `l` whose id is `i`, if any. -/
def mapGetStrategy (l : List Strategy) (i : String) : Option Strategy :=
  l.reverse.find? (fun s => s.id == i)

/-- The set of all trade ids across a collection
(`local.forEach(s => s.trades.forEach(t => localTradeIds.add(t.id)))`). -/
def allTradeIds (l : List Strategy) : List String :=
  l.flatMap (fun s => s.trades.map Trade.id)

/-- `hasNewData` (lines 7-36): true when remote has more strategies, a strategy id
absent locally, or a trade id absent from the global local trade-id set. -/
def hasNewData (localS remoteS : List Strategy) : Bool :=
  if remoteS.length > localS.length then true
  else
    remoteS.any (fun rs =>
      match mapGetStrategy localS rs.id with
      | none => true                       -- strategy doesn't exist locally
      | some _ =>                          -- check for trades absent from localTradeIds
        rs.trades.any (fun t => !((allTradeIds localS).contains t.id)))

/-- The body of the per-remote-strategy loop of `mergeStrategies` (lines 55-82):
a brand-new remote strategy is adopted wholesale; an existing one keeps the local
strategy (name, capital, trades) and appends the remote trades whose id is not
already among that local strategy's own trade ids. -/
def mergeImage (localS : List Strategy) (rs : Strategy) : Strategy :=
  match mapGetStrategy localS rs.id with
  | none => rs
  | some ls =>
    { ls with trades :=
        ls.trades ++ rs.trades.filter (fun t => !((ls.trades.map Trade.id).contains t.id)) }

/-- `mergeStrategies` (lines 45-92): the processed remote strategies in remote order,
followed by the local-only strategies in local order. -/
def mergeStrategies (localS remoteS : List Strategy) : List Strategy :=
  remoteS.map (mergeImage localS) ++
    localS.filter (fun ls => !((remoteS.map Strategy.id).contains ls.id))

/-! Helper lemmas about the map lookup and trade-id sets. -/

lemma mapGetStrategy_mem {l : List Strategy} {i : String} {s : Strategy}
    (h : mapGetStrategy l i = some s) : s ∈ l ∧ s.id = i := by
  unfold mapGetStrategy at h
  refine ⟨List.mem_reverse.mp (List.mem_of_find?_eq_some h), ?_⟩
  have := List.find?_some h
  simpa using this

lemma mapGetStrategy_isSome_of_mem {l : List Strategy} {s : Strategy} (h : s ∈ l) :
    ∃ s', mapGetStrategy l s.id = some s' := by
  have hs : (l.reverse.find? (fun x => x.id == s.id)).isSome := by
    rw [List.find?_isSome]
    exact ⟨s, List.mem_reverse.mpr h, by simp⟩
  obtain ⟨s', hs'⟩ := Option.isSome_iff_exists.mp hs
  exact ⟨s', hs'⟩

lemma mapGetStrategy_of_nodup {l : List Strategy} {s : Strategy}
    (hn : (l.map Strategy.id).Nodup) (h : s ∈ l) :
    mapGetStrategy l s.id = some s := by
  obtain ⟨s', hs'⟩ := mapGetStrategy_isSome_of_mem h
  obtain ⟨hmem, hid⟩ := mapGetStrategy_mem hs'
  have : s' = s := List.inj_on_of_nodup_map hn hmem h hid
  rw [hs', this]

lemma mem_allTradeIds {l : List Strategy} {tid : String} :
    tid ∈ allTradeIds l ↔ ∃ s ∈ l, ∃ t ∈ s.trades, t.id = tid := by
  unfold allTradeIds
  simp [List.mem_flatMap]

/-- The merged strategy for a remote strategy always keeps the remote id. -/
lemma mergeImage_id (localS : List Strategy) (rs : Strategy) :
    (mergeImage localS rs).id = rs.id := by
  unfold mergeImage
  cases h : mapGetStrategy localS rs.id with
  | none => rfl
  | some ls => simpa using (mapGetStrategy_mem h).2

/-- Every trade id of the remote strategy occurs among the merged strategy's trade ids. -/
lemma mergeImage_trades_superset (localS : List Strategy) (rs : Strategy) :
    ∀ t ∈ rs.trades, t.id ∈ (mergeImage localS rs).trades.map Trade.id := by
  intro t ht
  unfold mergeImage
  cases h : mapGetStrategy localS rs.id with
  | none => exact List.mem_map_of_mem Trade.id ht
  | some ls =>
    simp only [List.map_append, List.mem_append]
    by_cases hin : t.id ∈ ls.trades.map Trade.id
    · exact Or.inl hin
    · refine Or.inr (List.mem_map_of_mem Trade.id ?_)
      refine List.mem_filter.mpr ⟨ht, ?_⟩
      simpa [List.elem_iff] using hin

/-- When the local collection has no duplicate ids and every remote trade's id is
already among the ids of the identically-named local strategy's own trades, merging
leaves that local strategy unchanged. -/
lemma mergeImage_eq_local {localS : List Strategy} {rs ls : Strategy}
    (hn : (localS.map Strategy.id).Nodup) (hls : ls ∈ localS) (hid : ls.id = rs.id)
    (htr : ∀ t ∈ rs.trades, t.id ∈ ls.trades.map Trade.id) :
    mergeImage localS rs = ls := by
  have hget : mapGetStrategy localS rs.id = some ls := by
    have := mapGetStrategy_of_nodup hn hls
    rwa [hid] at this
  have hfil : rs.trades.filter (fun t => !((ls.trades.map Trade.id).contains t.id)) = [] := by
    rw [List.filter_eq_nil_iff]
    intro t ht
    simp [List.elem_iff, htr t ht]
  unfold mergeImage
  rw [hget]
  show ({ ls with trades :=
      ls.trades ++ rs.trades.filter (fun t => !((ls.trades.map Trade.id).contains t.id)) } :
    Strategy) = ls
  rw [hfil, List.append_nil]

lemma string_contains_iff (l : List String) (a : String) : l.contains a = true ↔ a ∈ l := by
  simp [List.contains, List.elem_iff]

lemma mergeImage_trades_of_get {localS : List Strategy} {rs ls : Strategy}
    (hg : mapGetStrategy localS rs.id = some ls) :
    (mergeImage localS rs).trades =
      ls.trades ++ rs.trades.filter (fun t => !((ls.trades.map Trade.id).contains t.id)) := by
  unfold mergeImage
  rw [hg]

/-- Extracting the three facts encoded by `hasNewData = false`: remote is not longer,
every remote strategy id resolves locally, and every remote trade id is already in the
global local trade-id set. -/
lemma hasNewData_false_facts {localS remoteS : List Strategy}
    (h : hasNewData localS remoteS = false) :
    ∀ rs ∈ remoteS, (∃ ls, mapGetStrategy localS rs.id = some ls) ∧
      ∀ t ∈ rs.trades, t.id ∈ allTradeIds localS := by
  intro rs hrs
  unfold hasNewData at h
  split at h
  · simp at h
  · rw [List.any_eq_false] at h
    have hrsf := h rs hrs
    cases hg : mapGetStrategy localS rs.id with
    | none => rw [hg] at hrsf; simp at hrsf
    | some ls =>
      rw [hg] at hrsf
      refine ⟨⟨ls, rfl⟩, ?_⟩
      intro t ht
      simp only [List.any_eq_true, not_exists, not_and] at hrsf
      have := hrsf t ht
      simpa [string_contains_iff] using this

/-- Claim C7: for valid collections (unique strategy ids, as the data model's identity
fields guarantee), merging never shrinks a common strategy's trade list and never loses
a local trade id. -/
theorem c7_merge_additive (localS remoteS : List Strategy)
    (hl : (localS.map Strategy.id).Nodup) :
    (∀ ls ∈ localS, ∀ rs ∈ remoteS, ls.id = rs.id →
      ∀ ms ∈ mergeStrategies localS remoteS, ms.id = ls.id →
        ls.trades.length ≤ ms.trades.length) ∧
    (∀ tid, tid ∈ allTradeIds localS → tid ∈ allTradeIds (mergeStrategies localS remoteS)) := by
  constructor
  · intro ls hls rs hrs hid ms hms hmsid
    unfold mergeStrategies at hms
    rcases List.mem_append.mp hms with hms | hms
    · obtain ⟨rs', hrs', heq⟩ := List.mem_map.mp hms
      have hrsid' : rs'.id = ls.id := by
        rw [← hmsid, ← heq, mergeImage_id]
      have hg : mapGetStrategy localS rs'.id = some ls := by
        rw [hrsid']
        exact mapGetStrategy_of_nodup hl hls
      have htr : ms.trades =
          ls.trades ++ rs'.trades.filter (fun t => !((ls.trades.map Trade.id).contains t.id)) := by
        rw [← heq]
        exact mergeImage_trades_of_get hg
      rw [htr, List.length_append]
      exact Nat.le_add_right _ _
    · exfalso
      have hpred := (List.mem_filter.mp hms).2
      have hmem : ms.id ∈ remoteS.map Strategy.id := by
        rw [hmsid, hid]
        exact List.mem_map_of_mem Strategy.id hrs
      simp [string_contains_iff, hmem] at hpred
  · intro tid htid
    obtain ⟨ls, hls, t, ht, rfl⟩ := mem_allTradeIds.mp htid
    by_cases hin : ls.id ∈ remoteS.map Strategy.id
    · obtain ⟨rs, hrs, hrsid⟩ := List.mem_map.mp hin
      have hg : mapGetStrategy localS rs.id = some ls := by
        rw [hrsid]
        exact mapGetStrategy_of_nodup hl hls
      apply mem_allTradeIds.mpr
      refine ⟨mergeImage localS rs, List.mem_append_left _ (List.mem_map_of_mem _ hrs), t, ?_, rfl⟩
      rw [mergeImage_trades_of_get hg]
      exact List.mem_append_left _ ht
    · apply mem_allTradeIds.mpr
      refine ⟨ls, List.mem_append_right _ ?_, t, ht, rfl⟩
      refine List.mem_filter.mpr ⟨hls, ?_⟩
      simp [string_contains_iff, hin]

/-- A local-only trade used by the merge examples. -/
def witTradeA : Trade where
  id := "a"
  strategyId := "s1"
  asset := "X"
  date := "2024-01-01"
  entryPrice := 100
  quantity := 10
  initialSl := 95
  exitPrice := none
  status := "open"
  notes := ""
  pyramids := []
  trailingStops := []
  partialExits := []
  statusManuallySet := none

/-- A remote-only trade used by the merge examples. -/
def witTradeB : Trade where
  id := "b"
  strategyId := "s1"
  asset := "Y"
  date := "2024-01-02"
  entryPrice := 50
  quantity := 5
  initialSl := 45
  exitPrice := none
  status := "open"
  notes := ""
  pyramids := []
  trailingStops := []
  partialExits := []
  statusManuallySet := none

/-- A remote copy of trade id `a` filed under strategy `s2` instead of `s1`. -/
def movedTradeA : Trade where
  id := "a"
  strategyId := "s2"
  asset := "X"
  date := "2024-01-01"
  entryPrice := 100
  quantity := 10
  initialSl := 95
  exitPrice := none
  status := "open"
  notes := ""
  pyramids := []
  trailingStops := []
  partialExits := []
  statusManuallySet := none

/-- A local collection with one strategy holding trade `a`. -/
def localOneStrategy : List Strategy :=
  [{ id := "s1", name := "Alpha", initialCapital := 1000, trades := [witTradeA] }]

/-- A remote copy of the same strategy holding only trade `b`. -/
def remoteOneStrategy : List Strategy :=
  [{ id := "s1", name := "Alpha", initialCapital := 1000, trades := [witTradeB] }]

/-- Witness for `c7_merge_additive`: trade id `a` survives the merge of
`localOneStrategy` with `remoteOneStrategy`. -/
theorem c7_merge_additive_witness :
    (localOneStrategy.map Strategy.id).Nodup ∧
    "a" ∈ allTradeIds localOneStrategy ∧
    "a" ∈ allTradeIds (mergeStrategies localOneStrategy remoteOneStrategy) :=
  ⟨by decide, by decide,
    (c7_merge_additive localOneStrategy remoteOneStrategy (by decide)).2 "a" (by decide)⟩

/-! Idempotence of the merge. -/

/-- Merging a valid collection with itself returns it unchanged. -/
lemma merge_self (localS : List Strategy) (hl : (localS.map Strategy.id).Nodup) :
    mergeStrategies localS localS = localS := by
  unfold mergeStrategies
  have h1 : localS.map (mergeImage localS) = localS := by
    have hpt : ∀ ls ∈ localS, mergeImage localS ls = ls := fun ls hls =>
      mergeImage_eq_local hl hls rfl (fun t ht => List.mem_map_of_mem Trade.id ht)
    calc localS.map (mergeImage localS) = localS.map (fun a => a) := List.map_congr_left hpt
      _ = localS := List.map_id' localS
  have h2 : localS.filter (fun ls => !((localS.map Strategy.id).contains ls.id)) = [] := by
    rw [List.filter_eq_nil_iff]
    intro ls hls
    simp [string_contains_iff, List.mem_map_of_mem Strategy.id hls]
  rw [h1, h2, List.append_nil]

/-- The strategy ids of a merge: the remote ids, then the local-only ids. -/
lemma mergeStrategies_map_id (localS remoteS : List Strategy) :
    (mergeStrategies localS remoteS).map Strategy.id =
      remoteS.map Strategy.id ++
        (localS.filter (fun ls => !((remoteS.map Strategy.id).contains ls.id))).map Strategy.id := by
  unfold mergeStrategies
  rw [List.map_append, List.map_map]
  congr 1
  exact List.map_congr_left (fun rs _ => mergeImage_id localS rs)

/-- For valid inputs, the merged collection has no duplicate strategy ids. -/
lemma mergeStrategies_ids_nodup (localS remoteS : List Strategy)
    (hl : (localS.map Strategy.id).Nodup) (hr : (remoteS.map Strategy.id).Nodup) :
    ((mergeStrategies localS remoteS).map Strategy.id).Nodup := by
  rw [mergeStrategies_map_id, List.nodup_append]
  refine ⟨hr, ?_, ?_⟩
  · exact ((List.filter_sublist localS).map Strategy.id).nodup hl
  · intro a ha hb
    obtain ⟨ls, hlsmem, rfl⟩ := List.mem_map.mp hb
    have hpred := (List.mem_filter.mp hlsmem).2
    simp only [Bool.not_eq_true'] at hpred
    rw [Bool.eq_false_iff] at hpred
    exact hpred ((string_contains_iff _ _).mpr ha)

/-- Merging into an already-merged collection maps each remote strategy to the same
result as the first merge did. -/
lemma mergeImage_merge (localS remoteS : List Strategy)
    (hl : (localS.map Strategy.id).Nodup) (hr : (remoteS.map Strategy.id).Nodup)
    {rs : Strategy} (hrs : rs ∈ remoteS) :
    mergeImage (mergeStrategies localS remoteS) rs = mergeImage localS rs := by
  have hmem : mergeImage localS rs ∈ mergeStrategies localS remoteS :=
    List.mem_append_left _ (List.mem_map_of_mem _ hrs)
  exact mergeImage_eq_local (mergeStrategies_ids_nodup localS remoteS hl hr) hmem
    (mergeImage_id localS rs) (mergeImage_trades_superset localS rs)

/-- Re-merging the same remote input is a no-op. -/
lemma merge_roundtrip (localS remoteS : List Strategy)
    (hl : (localS.map Strategy.id).Nodup) (hr : (remoteS.map Strategy.id).Nodup) :
    mergeStrategies (mergeStrategies localS remoteS) remoteS = mergeStrategies localS remoteS := by
  show remoteS.map (mergeImage (mergeStrategies localS remoteS)) ++
      (mergeStrategies localS remoteS).filter
        (fun ls => !((remoteS.map Strategy.id).contains ls.id)) =
    mergeStrategies localS remoteS
  have h1 : remoteS.map (mergeImage (mergeStrategies localS remoteS)) =
      remoteS.map (mergeImage localS) :=
    List.map_congr_left (fun rs hrs => mergeImage_merge localS remoteS hl hr hrs)
  have h2 : (mergeStrategies localS remoteS).filter
      (fun ls => !((remoteS.map Strategy.id).contains ls.id)) =
      localS.filter (fun ls => !((remoteS.map Strategy.id).contains ls.id)) := by
    unfold mergeStrategies
    rw [List.filter_append]
    have hr0 : (remoteS.map (mergeImage localS)).filter
        (fun ls => !((remoteS.map Strategy.id).contains ls.id)) = [] := by
      rw [List.filter_eq_nil_iff]
      intro s hs
      obtain ⟨rs, hrsmem, rfl⟩ := List.mem_map.mp hs
      have hmem : (mergeImage localS rs).id ∈ remoteS.map Strategy.id := by
        rw [mergeImage_id]
        exact List.mem_map_of_mem Strategy.id hrsmem
      simp [string_contains_iff, hmem]
    have hf1 : (localS.filter (fun ls => !((remoteS.map Strategy.id).contains ls.id))).filter
        (fun ls => !((remoteS.map Strategy.id).contains ls.id)) =
        localS.filter (fun ls => !((remoteS.map Strategy.id).contains ls.id)) := by
      rw [List.filter_eq_self]
      intro a ha
      exact (List.mem_filter.mp ha).2
    rw [hr0, List.nil_append, hf1]
  rw [h1, h2]
  rfl

/-- Claim C9: for valid collections (unique strategy ids), merging a collection with
itself returns it unchanged, and re-merging the same remote input is a no-op —
both even up to exact equality, hence a fortiori up to ordering. -/
theorem c9_merge_idempotent (localS remoteS : List Strategy)
    (hl : (localS.map Strategy.id).Nodup) (hr : (remoteS.map Strategy.id).Nodup) :
    mergeStrategies localS localS = localS ∧
    mergeStrategies (mergeStrategies localS remoteS) remoteS =
      mergeStrategies localS remoteS :=
  ⟨merge_self localS hl, merge_roundtrip localS remoteS hl hr⟩

/-- Witness for `c9_merge_idempotent` at the one-strategy example collections. -/
theorem c9_merge_idempotent_witness :
    (localOneStrategy.map Strategy.id).Nodup ∧ (remoteOneStrategy.map Strategy.id).Nodup ∧
    (mergeStrategies localOneStrategy localOneStrategy = localOneStrategy ∧
     mergeStrategies (mergeStrategies localOneStrategy remoteOneStrategy) remoteOneStrategy =
       mergeStrategies localOneStrategy remoteOneStrategy) :=
  ⟨by decide, by decide,
    c9_merge_idempotent localOneStrategy remoteOneStrategy (by decide) (by decide)⟩

/-- Claim C2 (amended): if the merge introduces a trade id absent from the whole local
collection then `hasNewData` is true (exactly as claimed); the converse — `hasNewData`
false implies the merge is a permutation of local — holds for valid collections
provided every remote trade whose id already exists locally is filed under the same
strategy that holds it locally. -/
theorem c2_has_new_data_soundness (localS remoteS : List Strategy) :
    (∀ tid, tid ∈ allTradeIds (mergeStrategies localS remoteS) →
      tid ∉ allTradeIds localS → hasNewData localS remoteS = true) ∧
    ((localS.map Strategy.id).Nodup → (remoteS.map Strategy.id).Nodup →
      (∀ rs ∈ remoteS, ∀ ls ∈ localS, ls.id = rs.id →
        ∀ t ∈ rs.trades, t.id ∈ ls.trades.map Trade.id) →
      hasNewData localS remoteS = false →
      List.Perm (mergeStrategies localS remoteS) localS) := by
  constructor
  · intro tid hmem hnot
    by_contra hfalse
    rw [Bool.not_eq_true] at hfalse
    have hfacts := hasNewData_false_facts hfalse
    obtain ⟨s, hsmem, t, ht, rfl⟩ := mem_allTradeIds.mp hmem
    unfold mergeStrategies at hsmem
    rcases List.mem_append.mp hsmem with hs | hs
    · obtain ⟨rs, hrs, rfl⟩ := List.mem_map.mp hs
      obtain ⟨⟨ls, hg⟩, htr⟩ := hfacts rs hrs
      rw [mergeImage_trades_of_get hg] at ht
      rcases List.mem_append.mp ht with ht' | ht'
      · exact hnot (mem_allTradeIds.mpr ⟨ls, (mapGetStrategy_mem hg).1, t, ht', rfl⟩)
      · exact hnot (htr t (List.mem_filter.mp ht').1)
    · exact hnot (mem_allTradeIds.mpr ⟨s, (List.mem_filter.mp hs).1, t, ht, rfl⟩)
  · intro hl hr hcross hfalse
    have hfacts := hasNewData_false_facts hfalse
    rw [List.perm_ext_iff_of_nodup
      (List.Nodup.of_map Strategy.id (mergeStrategies_ids_nodup localS remoteS hl hr))
      (List.Nodup.of_map Strategy.id hl)]
    intro a
    constructor
    · intro ha
      unfold mergeStrategies at ha
      rcases List.mem_append.mp ha with hs | hs
      · obtain ⟨rs, hrs, rfl⟩ := List.mem_map.mp hs
        obtain ⟨⟨ls, hg⟩, -⟩ := hfacts rs hrs
        obtain ⟨hlsmem, hlsid⟩ := mapGetStrategy_mem hg
        rw [mergeImage_eq_local hl hlsmem hlsid (hcross rs hrs ls hlsmem hlsid)]
        exact hlsmem
      · exact (List.mem_filter.mp hs).1
    · intro ha
      by_cases hin : a.id ∈ remoteS.map Strategy.id
      · obtain ⟨rs, hrs, hrsid⟩ := List.mem_map.mp hin
        have heq : mergeImage localS rs = a :=
          mergeImage_eq_local hl ha hrsid.symm (hcross rs hrs a ha hrsid.symm)
        exact List.mem_append_left _ (heq ▸ List.mem_map_of_mem (mergeImage localS) hrs)
      · refine List.mem_append_right _ (List.mem_filter.mpr ⟨ha, ?_⟩)
        simp [string_contains_iff, hin]

/-- A local collection with two strategies: `s1` holds trade `a`, `s2` holds nothing. -/
def twoStrategyLocal : List Strategy :=
  [{ id := "s1", name := "Alpha", initialCapital := 1000, trades := [witTradeA] },
   { id := "s2", name := "Beta", initialCapital := 500, trades := [] }]

/-- A remote collection in which trade id `a` sits under strategy `s2`. -/
def movedTradeRemote : List Strategy :=
  [{ id := "s2", name := "Beta", initialCapital := 500, trades := [movedTradeA] }]

/-- Claim C2 (counterexample): with trade id `a` filed under `s2` remotely but under
`s1` locally, `hasNewData` is false (the id exists somewhere locally) yet the merge
adds the remote copy to `s2`, so the merge is not a no-op up to ordering. -/
theorem c2_counterexample :
    hasNewData twoStrategyLocal movedTradeRemote = false ∧
    ¬ List.Perm (mergeStrategies twoStrategyLocal movedTradeRemote) twoStrategyLocal := by
  constructor
  · decide
  · decide

/-- Witness for `c2_has_new_data_soundness`: part one fires at the one-strategy
collections (remote trade `b` is new, so `hasNewData` is true), and part two shows
merging a collection with itself is a permutation of it. -/
theorem c2_has_new_data_soundness_witness :
    hasNewData localOneStrategy remoteOneStrategy = true ∧
    List.Perm (mergeStrategies localOneStrategy localOneStrategy) localOneStrategy :=
  ⟨(c2_has_new_data_soundness localOneStrategy remoteOneStrategy).1 ("b")
      (by decide) (by decide),
   (c2_has_new_data_soundness localOneStrategy localOneStrategy).2
      (by decide) (by decide) (by decide) (by decide)⟩

/-! Raw inputs for claim C8.  The TypeScript types declare the arrays as required,
but the spec's failure-semantics claim is about data whose arrays may be absent
(e.g. loaded from storage).  Absence is modelled as `none`; a JS `TypeError`
(property access / iteration on `undefined`) is modelled as the result `none`. -/

/-- A trade as it may arrive from storage: the three arrays may be absent. -/
structure RawTrade where
  id : String
  strategyId : String
  asset : String
  date : String
  entryPrice : ℚ
  quantity : ℚ
  initialSl : ℚ
  exitPrice : Option ℚ
  status : TradeStatus
  notes : String
  pyramids : Option (List PyramidEntry)
  trailingStops : Option (List TrailingStop)
  partialExits : Option (List PartialExit)
  statusManuallySet : Option Bool
deriving DecidableEq

/-- `getTradeStats` on raw input: `trade.pyramids.reduce(...)` throws when `pyramids`
is absent; `(trade.partialExits || [])` and the `trade.trailingStops && ...` guard
treat absence as the empty list, after which the computation is `getTradeStats`. -/
def getTradeStatsRaw (t : RawTrade) : Option TradeStats :=
  match t.pyramids with
  | none => none
  | some ps =>
    some (getTradeStats
      { id := t.id, strategyId := t.strategyId, asset := t.asset, date := t.date
        entryPrice := t.entryPrice, quantity := t.quantity, initialSl := t.initialSl
        exitPrice := t.exitPrice, status := t.status, notes := t.notes
        pyramids := ps, trailingStops := t.trailingStops.getD []
        partialExits := t.partialExits.getD [], statusManuallySet := t.statusManuallySet })

/-- A strategy as it may arrive from storage: the `trades` array may be absent. -/
structure RawStrategy where
  id : String
  name : String
  initialCapital : ℚ
  trades : Option (List Trade)
deriving DecidableEq

/-- The JS `Map` lookup over raw strategies (last binding wins). -/
def mapGetRawStrategy (l : List RawStrategy) (i : String) : Option RawStrategy :=
  l.reverse.find? (fun s => s.id == i)

/-- The remote loop of `hasNewData` on raw input: an absent local strategy returns
true before its trades are touched; iterating an absent remote `trades` throws. -/
def hasNewDataLoop (localS : List RawStrategy) (localTradeIds : List String) :
    List RawStrategy → Option Bool
  | [] => some false
  | rs :: rest =>
    match mapGetRawStrategy localS rs.id with
    | none => some true
    | some _ =>
      match rs.trades with
      | none => none
      | some ts =>
        if ts.any (fun t => !(localTradeIds.contains t.id)) then some true
        else hasNewDataLoop localS localTradeIds rest

/-- `hasNewData` on raw input: after the cheap length check, building the local
trade-id set iterates every local strategy's `trades`, so any absent local `trades`
throws before the remote loop runs. -/
def hasNewDataRaw (localS remoteS : List RawStrategy) : Option Bool :=
  if remoteS.length > localS.length then some true
  else if localS.any (fun s => s.trades.isNone) then none
  else hasNewDataLoop localS
    (localS.flatMap (fun s => (s.trades.getD []).map Trade.id)) remoteS

/-- The remote loop of `mergeStrategies` on raw input: a brand-new remote strategy is
adopted wholesale without touching its `trades`; merging into an existing local
strategy iterates the remote `trades` and throws when they are absent. -/
def mergeRemoteRaw (localS : List RawStrategy) : List RawStrategy → Option (List RawStrategy)
  | [] => some []
  | rs :: rest =>
    match mapGetRawStrategy localS rs.id with
    | none => (mergeRemoteRaw localS rest).map (fun tail => rs :: tail)
    | some ls =>
      match rs.trades with
      | none => none
      | some rts =>
        (mergeRemoteRaw localS rest).map (fun tail =>
          { ls with trades := some ((ls.trades.getD []) ++
              rts.filter (fun t => !(((ls.trades.getD []).map Trade.id).contains t.id))) } :: tail)

/-- `mergeStrategies` on raw input: the global local trade map is built first, so an
absent local `trades` throws immediately; afterwards the remote loop runs and the
local-only strategies are appended. -/
def mergeStrategiesRaw (localS remoteS : List RawStrategy) : Option (List RawStrategy) :=
  if localS.any (fun s => s.trades.isNone) then none
  else (mergeRemoteRaw localS remoteS).map (fun merged =>
    merged ++ localS.filter (fun ls => !((remoteS.map RawStrategy.id).contains ls.id)))

lemma hasNewDataLoop_isSome (localS : List RawStrategy) (ids : List String) :
    ∀ rem : List RawStrategy, (∀ s ∈ rem, s.trades.isSome) →
      (hasNewDataLoop localS ids rem).isSome := by
  intro rem
  induction rem with
  | nil => intro _; simp [hasNewDataLoop]
  | cons rs rest ih =>
    intro h
    unfold hasNewDataLoop
    cases hg : mapGetRawStrategy localS rs.id with
    | none => simp
    | some ls =>
      cases hts : rs.trades with
      | none =>
        have := h rs (by simp)
        rw [hts] at this
        simp at this
      | some ts =>
        simp only [hg, hts]
        split
        · simp
        · exact ih (fun s hs => h s (by simp [hs]))

lemma mergeRemoteRaw_isSome (localS : List RawStrategy) :
    ∀ rem : List RawStrategy, (∀ s ∈ rem, s.trades.isSome) →
      (mergeRemoteRaw localS rem).isSome := by
  intro rem
  induction rem with
  | nil => intro _; simp [mergeRemoteRaw]
  | cons rs rest ih =>
    intro h
    have hrest := ih (fun s hs => h s (by simp [hs]))
    unfold mergeRemoteRaw
    cases hg : mapGetRawStrategy localS rs.id with
    | none => simpa using hrest
    | some ls =>
      cases hts : rs.trades with
      | none =>
        have := h rs (by simp)
        rw [hts] at this
        simp at this
      | some ts => simpa using hrest

/-- Claim C8 (amended): `getTradeStats` succeeds exactly when the `pyramids` array is
present (a missing `partialExits` or `trailingStops` is treated as empty, but a
missing `pyramids` throws); `hasNewData` and `mergeStrategies` never throw provided
every strategy of both collections has its `trades` array present. -/
theorem c8_totality_amended :
    (∀ t : RawTrade, (getTradeStatsRaw t).isSome ↔ t.pyramids.isSome) ∧
    (∀ localS remoteS : List RawStrategy,
      (∀ s ∈ localS, s.trades.isSome) → (∀ s ∈ remoteS, s.trades.isSome) →
      (hasNewDataRaw localS remoteS).isSome ∧ (mergeStrategiesRaw localS remoteS).isSome) := by
  constructor
  · intro t
    cases hp : t.pyramids <;> simp [getTradeStatsRaw, hp]
  · intro localS remoteS hloc hrem
    have hguard : localS.any (fun s => s.trades.isNone) = false := by
      rw [List.any_eq_false]
      intro s hs
      have := hloc s hs
      simp only [Option.isNone_iff_eq_none]
      intro hnone
      rw [hnone] at this
      simp at this
    constructor
    · unfold hasNewDataRaw
      by_cases hlen : remoteS.length > localS.length
      · simp [hlen]
      · rw [if_neg hlen, hguard]
        simpa using hasNewDataLoop_isSome localS _ remoteS hrem
    · unfold mergeStrategiesRaw
      rw [hguard]
      have := mergeRemoteRaw_isSome localS remoteS hrem
      simpa using this

/-- A raw strategy whose `trades` array is absent. -/
def noTradesStrategy : RawStrategy where
  id := "s1"
  name := "Alpha"
  initialCapital := 1000
  trades := none

/-- A raw trade whose `pyramids` array is absent (other arrays present). -/
def noPyramidsTrade : RawTrade where
  id := "t1"
  strategyId := "s1"
  asset := "X"
  date := "2024-01-01"
  entryPrice := 100
  quantity := 10
  initialSl := 95
  exitPrice := none
  status := "open"
  notes := ""
  pyramids := none
  trailingStops := some []
  partialExits := some []
  statusManuallySet := none

/-- A raw trade with `pyramids` present but `partialExits` and `trailingStops` absent. -/
def goodRawTrade : RawTrade where
  id := "t2"
  strategyId := "s1"
  asset := "X"
  date := "2024-01-01"
  entryPrice := 100
  quantity := 10
  initialSl := 95
  exitPrice := none
  status := "open"
  notes := ""
  pyramids := some []
  trailingStops := none
  partialExits := none
  statusManuallySet := none

/-- A raw strategy whose `trades` array is present. -/
def goodRawStrategy : RawStrategy where
  id := "s1"
  name := "Alpha"
  initialCapital := 1000
  trades := some [witTradeA]

/-- Claim C8 (counterexample): a strategy without a `trades` array makes both
`hasNewData` and `mergeStrategies` throw (result `none`) instead of being treated as
empty, and a trade without a `pyramids` array makes `getTradeStats` throw. -/
theorem c8_totality_counterexample :
    hasNewDataRaw [noTradesStrategy] [noTradesStrategy] = none ∧
    mergeStrategiesRaw [noTradesStrategy] [noTradesStrategy] = none ∧
    getTradeStatsRaw noPyramidsTrade = none := by
  refine ⟨by decide, by decide, rfl⟩

/-- Witness for `c8_totality_amended` at concrete raw inputs. -/
theorem c8_totality_witness :
    ((getTradeStatsRaw goodRawTrade).isSome ↔ goodRawTrade.pyramids.isSome) ∧
    (hasNewDataRaw [goodRawStrategy] [goodRawStrategy]).isSome = true ∧
    (mergeStrategiesRaw [goodRawStrategy] [goodRawStrategy]).isSome = true :=
  ⟨c8_totality_amended.1 goodRawTrade,
   (c8_totality_amended.2 [goodRawStrategy] [goodRawStrategy] (by decide) (by decide)).1,
   (c8_totality_amended.2 [goodRawStrategy] [goodRawStrategy] (by decide) (by decide)).2⟩
